import Mathlib

/-!
Verification of the WebThingsIO/webthing-tester conformance harness
(`test-client.py`) against its natural-language specification.

The harness is a single Python script.  The definitions below are a shallow
embedding of its pure logic:

* `lists_equal`            — the list/set comparison helper (lines 102-107);
* `time_regex_match`       — the `_TIME_REGEX` timestamp check (line 13),
                             including Python `re` semantics where `$` also
                             matches just before one trailing newline;
* `http_request_url`, `http_request_fake_host`, `http_request_headers`
                           — the URL and header construction of
                             `http_request` (lines 41-86);
* `validateRemainingLinks` — the alternate-link loop of the description
                             check (lines 172-188);
* `completedActionCheck`   — the completed-action assertions (lines 240-249);
* `ws_action_phase1` / `ws_action_phase2` and their collection loops
                           — the WebSocket `requestAction` notification
                             handling (lines 386-426 and 472-509);
* `testSequence`           — the order of fade-action triggers and event-log
                             count assertions across the whole run
                             (lines 210-212, 219, 267-279, 281, 374,
                             447-449, 461).

Strings are modelled as Lean `String`/`List Char`.  Python `\d` is modelled
by `Char.isDigit`, i.e. the ASCII fragment of the Unicode digit class; the
path-prefix fragment interpolated into the WebSocket-href regular expression
is treated as a literal (it contains no metacharacters in any supported
configuration).  Assertion failures and raised exceptions are both modelled
as `Except.error`.
-/

/-! ## Basic string helpers -/

/-- Structural prefix test on character lists. -/
def listIsPfxOf : List Char → List Char → Bool
  | [], _ => true
  | _ :: _, [] => false
  | a :: as, b :: bs => a == b && listIsPfxOf as bs

/-- Python `s.startswith(pat)`. -/
def strStartsWith (s pat : String) : Bool :=
  listIsPfxOf pat.data s.data

/-! ## `lists_equal` (test-client.py lines 102-107)

Python:
```
def lists_equal(a, b):
    if len(a) != len(b):
        return False
    intersection = set(a) & set(b)
    return len(intersection) == len(a)
```
`set(a) & set(b)` is modelled as the deduplicated elements of `a` that also
occur in `b`; its cardinality is that list's length. -/

def lists_equal (a b : List String) : Bool :=
  a.length == b.length && (a.dedup.filter (fun x => x ∈ b.dedup)).length == a.length

/-- The expected `@type` value compared at line 120. -/
def expectedTypes : List String := ["OnOffSwitch", "Light"]

/-! ## `_TIME_REGEX` (test-client.py line 13)

Python: `r'^\d{4}-\d{2}-\d{2}T\d{2}:\d{2}:\d{2}[+-]\d{2}:\d{2}$'`,
used as `re.match(_TIME_REGEX, s) is not None`.  The matcher is embedded as
a sequential consumer; per Python `re` semantics, `$` matches at the end of
the string or just before a newline at the end of the string. -/

/-- Consume exactly `n` digit characters (`\d{n}`). -/
def matchDigits : Nat → List Char → Option (List Char)
  | 0, l => some l
  | _ + 1, [] => none
  | n + 1, c :: l => if c.isDigit then matchDigits n l else none

/-- Consume one literal character. -/
def matchLit (c : Char) : List Char → Option (List Char)
  | [] => none
  | d :: l => if d == c then some l else none

/-- Consume one character of the class `[+-]`. -/
def matchSign : List Char → Option (List Char)
  | [] => none
  | d :: l => if d == '+' || d == '-' then some l else none

/-- The body of `_TIME_REGEX` between the anchors: returns the unconsumed
remainder on success. -/
def timeRegexCore (l : List Char) : Option (List Char) :=
  (matchDigits 4 l).bind fun l =>
  (matchLit '-' l).bind fun l =>
  (matchDigits 2 l).bind fun l =>
  (matchLit '-' l).bind fun l =>
  (matchDigits 2 l).bind fun l =>
  (matchLit 'T' l).bind fun l =>
  (matchDigits 2 l).bind fun l =>
  (matchLit ':' l).bind fun l =>
  (matchDigits 2 l).bind fun l =>
  (matchLit ':' l).bind fun l =>
  (matchDigits 2 l).bind fun l =>
  (matchSign l).bind fun l =>
  (matchDigits 2 l).bind fun l =>
  (matchLit ':' l).bind fun l =>
  matchDigits 2 l

/-- `re.match(_TIME_REGEX, s) is not None`.  The `$` anchor succeeds when the
remainder is empty or a single final newline. -/
def time_regex_match (s : String) : Bool :=
  match timeRegexCore s.data with
  | some [] => true
  | some ['\n'] => true
  | _ => false

/-- Modelled from the spec: "Timestamp format: `YYYY-MM-DDTHH:MM:SS(+|-)HH:MM`
— fixed-width, explicit numeric UTC offset, second resolution, no fractional
seconds."  A character list has the fixed-width form when it decomposes into
digit fields of widths 4,2,2,2,2,2,2,2 joined by the literal separators, with
a `+` or `-` offset sign. -/
def SpecTimestampForm (l : List Char) : Prop :=
  ∃ (y mo d h mi se oh om : List Char) (sg : Char),
    l = y ++ '-' :: (mo ++ '-' :: (d ++ 'T' :: (h ++ ':' :: (mi ++ ':' ::
        (se ++ sg :: (oh ++ ':' :: om)))))) ∧
    y.length = 4 ∧ mo.length = 2 ∧ d.length = 2 ∧ h.length = 2 ∧
    mi.length = 2 ∧ se.length = 2 ∧ oh.length = 2 ∧ om.length = 2 ∧
    (∀ c ∈ y ++ mo ++ d ++ h ++ mi ++ se ++ oh ++ om, c.isDigit = true) ∧
    (sg = '+' ∨ sg = '-')

/-- Chronological key of a fixed-format timestamp: local seconds on a
lexicographic calendar scale (months scaled by 31, which preserves date
order for day fields in 1..31), shifted to UTC by the numeric offset.
Used only to state that one concrete timestamp precedes another. -/
def digitVal (c : Char) : Int :=
  (c.toNat : Int) - 48

/-- Digit value at a fixed position of the timestamp. -/
def tsDigit (l : List Char) (i : Nat) : Int :=
  digitVal (l.getD i '0')

/-- Chronological comparison key for `YYYY-MM-DDTHH:MM:SS(+|-)HH:MM`. -/
def timestampKey (s : String) : Int :=
  let l := s.data
  let y := tsDigit l 0 * 1000 + tsDigit l 1 * 100 + tsDigit l 2 * 10 + tsDigit l 3
  let mo := tsDigit l 5 * 10 + tsDigit l 6
  let d := tsDigit l 8 * 10 + tsDigit l 9
  let h := tsDigit l 11 * 10 + tsDigit l 12
  let mi := tsDigit l 14 * 10 + tsDigit l 15
  let se := tsDigit l 17 * 10 + tsDigit l 18
  let offMin := (tsDigit l 20 * 10 + tsDigit l 21) * 60 + (tsDigit l 23 * 10 + tsDigit l 24)
  let sgn : Int := if l.getD 19 '+' == '-' then 1 else -1
  ((((y * 372 + mo * 31 + d) * 24 + h) * 60 + mi) * 60 + se) + sgn * offMin * 60

/-! ## `http_request` URL and headers (test-client.py lines 41-86) -/

/-- Python `url.rstrip('/')` on the character list. -/
def rstripSlash (l : List Char) : List Char :=
  (l.reverse.dropWhile (fun c => c == '/')).reverse

/-- The request URL: `_PROTO + '://' + _BASE_URL + _PATH_PREFIX + path`,
then trailing `/` characters stripped (lines 49-50). -/
def http_request_url (proto base pfx path : String) : String :=
  String.mk (rstripSlash (proto ++ "://" ++ base ++ pfx ++ path).data)

/-- Python `base.split(':')[1]`: the characters after the first `:` up to
the next `:`. -/
def splitAfterColon (l : List Char) : List Char :=
  ((l.dropWhile (fun c => c != ':')).drop 1).takeWhile (fun c => c != ':')

/-- The fake `Host` header value (lines 54-56): `'localhost'`, with
`':' + base.split(':')[1]` appended when the base URL contains a colon. -/
def http_request_fake_host (base : String) : String :=
  if base.data.contains ':' then
    String.mk ("localhost:".data ++ splitAfterColon base.data)
  else
    "localhost"

/-- The request headers assembled by `http_request` (lines 58-61, 69-70, 79). -/
def http_request_headers (base : String) (auth : Option String) (hasData : Bool) :
    List (String × String) :=
  [("Host", http_request_fake_host base), ("Accept", "application/json")] ++
    (match auth with
     | some a => [("Authorization", a)]
     | none => []) ++
    (if hasData then [("Content-Type", "application/json")] else [])

/-! ## Alternate-link validation (test-client.py lines 172-188) -/

/-- One entry of the top-level `links` array, restricted to the fields the
loop reads. -/
structure Link where
  rel : String
  mediaType : Option String
  href : String
deriving DecidableEq

/-- `'wss' if _PROTO == 'https' else 'ws'` (line 184). -/
def wsProto (proto : String) : String :=
  if proto == "https" then "wss" else "ws"

/-- `re.match(proto + '://[^/]+' + _PATH_PREFIX, href)` (line 185): the href
starts with `proto://`, then one or more non-`/` characters, then the path
prefix (taken literally), then anything. -/
def wsHrefMatch (wsp pfx href : String) : Bool :=
  let pre := (wsp ++ "://").data
  let s := href.data
  listIsPfxOf pre s &&
    (let body := s.drop pre.length
     (List.range body.length).any (fun i =>
       (body.take (i + 1)).all (fun c => c != '/') &&
         listIsPfxOf pfx.data (body.drop (i + 1))))

/-- The per-link assertions of the loop body (lines 177-186). -/
def altLinkOk (proto pfx : String) (l : Link) : Bool :=
  match l.mediaType with
  | some m => m == "text/html" && l.href == pfx
  | none => wsHrefMatch (wsProto proto) pfx l.href

/-- The loop over `remaining_links`: non-`alternate` links are skipped,
`mediaType`-bearing links must be the html alternate, the rest must match
the WebSocket pattern and set `ws_href`; `found` tracks whether `ws_href`
has been set. -/
def validateLinks (proto pfx : String) : List Link → Bool → Bool
  | [], found => found
  | l :: rest, found =>
    if l.rel == "alternate" then
      match l.mediaType with
      | some m =>
        m == "text/html" && l.href == pfx && validateLinks proto pfx rest found
      | none =>
        wsHrefMatch (wsProto proto) pfx l.href && validateLinks proto pfx rest true
    else
      validateLinks proto pfx rest found

/-- Lines 173-188: at least one remaining link, every alternate link passes
its assertions, and `ws_href` ends up assigned. -/
def validateRemainingLinks (proto pfx : String) (links : List Link) : Bool :=
  !links.isEmpty && validateLinks proto pfx links false

/-- Number of alternate links carrying `mediaType: text/html`. -/
def countHtmlAlternate (links : List Link) : Nat :=
  (links.filter (fun l => l.rel == "alternate" && l.mediaType == some "text/html")).length

/-- A `links` value whose only alternate link is the WebSocket one: no
`text/html` alternate at all. -/
def wsOnlyLinks : List Link :=
  [⟨"alternate", none, "ws://127.0.0.1:8888"⟩]

/-! ## Completed-action assertions (test-client.py lines 240-249) -/

/-- The fields of one `{'fade': ...}` action envelope read by the checks. -/
structure ActionRecord where
  input_brightness : Int
  input_duration : Int
  href : String
  timeRequested : Option String
  timeCompleted : Option String
  status : String
deriving DecidableEq

/-- `re.match(_TIME_REGEX, x) is not None` applied to a field that raises
`KeyError` (hence fails) when absent. -/
def optTimeOk : Option String → Bool
  | some t => time_regex_match t
  | none => false

/-- The assertions run against a completed action entry (lines 244-249):
input fields, href, both timestamp formats, and `status == 'completed'`.
No comparison between the two timestamp values is performed. -/
def completedActionCheck (pfx actionId : String) (b d : Int) (a : ActionRecord) : Bool :=
  a.input_brightness == b && a.input_duration == d &&
    a.href == pfx ++ "/actions/fade/" ++ actionId &&
    optTimeOk a.timeRequested && optTimeOk a.timeCompleted &&
    a.status == "completed"

/-- A completed action whose `timeCompleted` is one year before its
`timeRequested`; every field the harness checks is well formed. -/
def reversedTimesAction : ActionRecord :=
  ⟨50, 2000, "/actions/fade/1",
   some "2021-06-15T12:00:00+00:00", some "2020-06-15T12:00:00+00:00",
   "completed"⟩

/-- A completed action with chronologically ordered timestamps. -/
def wellFormedAction : ActionRecord :=
  ⟨50, 2000, "/actions/fade/1",
   some "2020-06-15T12:00:00+00:00", some "2020-06-15T12:00:05+00:00",
   "completed"⟩

/-! ## WebSocket notification handling (test-client.py lines 386-426, 472-509) -/

/-- The `data.fade` payload of an `actionStatus` notification. -/
structure ActionData where
  brightness : Int
  duration : Int
  href : String
  status : String
  timeRequested : Option String
  timeCompleted : Option String
deriving DecidableEq

/-- One received WebSocket message, classified by its `messageType`.
`propertyStatus` carries `data.brightness`, `event` carries
`data.overheated.data` and `data.overheated.timestamp`; `other` is any
unrecognized `messageType`. -/
inductive WsMessage where
  | propertyStatus (brightness : Int)
  | actionStatus (a : ActionData)
  | event (data : Int) (timestamp : String)
  | other (messageType : String)
deriving DecidableEq

/-- The `messageType` field of a message. -/
def messageTypeOf : WsMessage → String
  | .propertyStatus _ => "propertyStatus"
  | .actionStatus _ => "actionStatus"
  | .event _ _ => "event"
  | .other t => t

/-- The assertions applied to an `actionStatus` message: brightness,
duration, href prefix, status, and — where the code checks them — the
timestamp formats.  Any other message kind fails the
`messageType == 'actionStatus'` assertion. -/
def checkActionStatus (pfx : String) (b d : Int) (st : String)
    (checkReq checkComp : Bool) : WsMessage → Bool
  | .actionStatus a =>
    a.brightness == b && a.duration == d &&
      strStartsWith a.href (pfx ++ "/actions/fade/") &&
      a.status == st &&
      (!checkReq || optTimeOk a.timeRequested) &&
      (!checkComp || optTimeOk a.timeCompleted)
  | _ => false

/-- The `while True` loop of lines 387-392: keep receiving while the message
is a `propertyStatus`; return the first other message and the remaining
stream, or `none` when the stream is exhausted (closed connection). -/
def skipPropertyStatus : List WsMessage → Option (WsMessage × List WsMessage)
  | [] => none
  | .propertyStatus _ :: rest => skipPropertyStatus rest
  | m :: rest => some (m, rest)

/-- Received flags of the first unordered collection loop (line 408). -/
structure Flags2 where
  propertyReceived : Bool
  actionReceived : Bool
deriving DecidableEq

/-- One iteration of the first unordered loop (lines 409-423): dispatch on
`messageType`; the `else` branch raises `ValueError('Wrong message: ...')`. -/
def loop2step (pfx : String) (f : Flags2) (m : WsMessage) : Except String Flags2 :=
  match m with
  | .propertyStatus b =>
    if b == 90 then .ok { f with propertyReceived := true }
    else .error "assertion failed: propertyStatus brightness"
  | .actionStatus _ =>
    if checkActionStatus pfx 90 1000 "completed" false false m then
      .ok { f with actionReceived := true }
    else .error "assertion failed: actionStatus content"
  | .event _ _ => .error ("Wrong message: " ++ messageTypeOf m)
  | .other t => .error ("Wrong message: " ++ t)

/-- The first unordered collection phase (lines 407-426): exactly two
receives, then every received flag must be set. -/
def collect2 (pfx : String) (msgs : List WsMessage) : Except String Unit :=
  match msgs with
  | m1 :: m2 :: _ =>
    match loop2step pfx ⟨false, false⟩ m1 with
    | .error e => .error e
    | .ok f1 =>
      match loop2step pfx f1 m2 with
      | .error e => .error e
      | .ok f2 =>
        if f2.propertyReceived && f2.actionReceived then .ok ()
        else .error "assertion failed: received"
  | _ => .error "connection closed"

/-- The first WebSocket `requestAction` phase (lines 386-426): skip any
extra `propertyStatus` messages, then require a `created` `actionStatus`,
then a `pending` `actionStatus`, then run the unordered collection. -/
def ws_action_phase1 (pfx : String) (msgs : List WsMessage) : Except String Unit :=
  match skipPropertyStatus msgs with
  | none => .error "connection closed"
  | some (m1, rest1) =>
    if checkActionStatus pfx 90 1000 "created" false false m1 then
      match rest1 with
      | [] => .error "connection closed"
      | m2 :: rest2 =>
        if checkActionStatus pfx 90 1000 "pending" false false m2 then
          collect2 pfx rest2
        else .error "assertion failed: pending actionStatus"
    else .error "assertion failed: created actionStatus"

/-- Received flags of the second unordered collection loop (line 488). -/
structure Flags3 where
  propertyReceived : Bool
  eventReceived : Bool
  actionReceived : Bool
deriving DecidableEq

/-- One iteration of the second unordered loop (lines 489-506).  The
dispatch has arms for `propertyStatus`, `event` and `actionStatus` but no
`else` branch: any other `messageType` is passed over without effect. -/
def loop3step (pfx : String) (f : Flags3) (m : WsMessage) : Except String Flags3 :=
  match m with
  | .propertyStatus b =>
    if b == 100 then .ok { f with propertyReceived := true }
    else .error "assertion failed: propertyStatus brightness"
  | .event d ts =>
    if d == 102 && time_regex_match ts then .ok { f with eventReceived := true }
    else .error "assertion failed: event content"
  | .actionStatus _ =>
    if checkActionStatus pfx 100 500 "completed" true true m then
      .ok { f with actionReceived := true }
    else .error "assertion failed: actionStatus content"
  | .other _ => .ok f

/-- The second unordered collection phase (lines 487-509): exactly three
receives, then every received flag must be set. -/
def collect3 (pfx : String) (msgs : List WsMessage) : Except String Unit :=
  match msgs with
  | m1 :: m2 :: m3 :: _ =>
    match loop3step pfx ⟨false, false, false⟩ m1 with
    | .error e => .error e
    | .ok f1 =>
      match loop3step pfx f1 m2 with
      | .error e => .error e
      | .ok f2 =>
        match loop3step pfx f2 m3 with
        | .error e => .error e
        | .ok f3 =>
          if f3.propertyReceived && f3.eventReceived && f3.actionReceived then .ok ()
          else .error "assertion failed: received"
  | _ => .error "connection closed"

/-- The second WebSocket `requestAction` phase (lines 472-509): the first
message must be a `created` `actionStatus` (with `timeRequested` format
checked), the second a `pending` one, then the unordered collection. -/
def ws_action_phase2 (pfx : String) (msgs : List WsMessage) : Except String Unit :=
  match msgs with
  | [] => .error "connection closed"
  | m1 :: rest1 =>
    if checkActionStatus pfx 100 500 "created" true false m1 then
      match rest1 with
      | [] => .error "connection closed"
      | m2 :: rest2 =>
        if checkActionStatus pfx 100 500 "pending" true false m2 then
          collect3 pfx rest2
        else .error "assertion failed: pending actionStatus"
    else .error "assertion failed: created actionStatus"

/-- Whether a message is an `actionStatus` notification. -/
def isActionStatusMsg : WsMessage → Bool
  | .actionStatus _ => true
  | _ => false

/-- The `data.fade.status` of an `actionStatus` message. -/
def statusOfMsg : WsMessage → String
  | .actionStatus a => a.status
  | _ => ""

/-- The statuses of the first two `actionStatus` messages of a stream. -/
def firstTwoActionStatuses (msgs : List WsMessage) : Option (String × String) :=
  match msgs.filter isActionStatusMsg with
  | m1 :: m2 :: _ => some (statusOfMsg m1, statusOfMsg m2)
  | _ => none

/-- Number of received flags set. -/
def flags3Count (f : Flags3) : Nat :=
  (if f.propertyReceived then 1 else 0) + (if f.eventReceived then 1 else 0) +
    (if f.actionReceived then 1 else 0)

/-- A sample `actionStatus` payload for the first WebSocket action. -/
def sampleAction1 (st : String) : ActionData :=
  ⟨90, 1000, "/actions/fade/1", st, none, none⟩

/-- A notification stream the first phase accepts: `created`, `pending`,
then the completion pair in arbitrary order. -/
def sampleStream1 : List WsMessage :=
  [.actionStatus (sampleAction1 "created"),
   .actionStatus (sampleAction1 "pending"),
   .propertyStatus 90,
   .actionStatus (sampleAction1 "completed")]

/-! ## Event-count bookkeeping across the run (C5) -/

/-- One observable step of the test sequence relevant to the event log:
triggering a `fade` action, or asserting the length of `GET /events` or
`GET /events/overheated`. -/
inductive EventCheckStep where
  | fadeTriggered
  | eventsCountAsserted (n : Nat)
  | overheatedCountAsserted (n : Nat)
deriving DecidableEq

/-- The order of fade-action triggers and event-log count assertions in
`run_client` with actions/events and WebSocket tests enabled:
line 212 (`len == 0`), line 219 (first REST action), lines 269 and 276
(`len == 1` globally and for `overheated`), line 281 (second REST action),
line 374 (first WebSocket action), line 449 (`len == 3`), line 461 (second
WebSocket action, after which the event log is not queried again). -/
def testSequence : List EventCheckStep :=
  [.eventsCountAsserted 0,
   .fadeTriggered,
   .eventsCountAsserted 1,
   .overheatedCountAsserted 1,
   .fadeTriggered,
   .fadeTriggered,
   .eventsCountAsserted 3,
   .fadeTriggered]

/-- Modelled from the spec: every asserted event count must equal the number
of fade actions triggered so far (each fade action enqueues exactly one
`overheated` event). -/
def eventCountsTrack : List EventCheckStep → Nat → Bool
  | [], _ => true
  | .fadeTriggered :: rest, k => eventCountsTrack rest (k + 1)
  | .eventsCountAsserted n :: rest, k => n == k && eventCountsTrack rest k
  | .overheatedCountAsserted n :: rest, k => n == k && eventCountsTrack rest k

/-- The count asserted by a step, when it is an assertion step. -/
def assertedCountOf : EventCheckStep → Option Nat
  | .eventsCountAsserted n => some n
  | .overheatedCountAsserted n => some n
  | .fadeTriggered => none

/-! ## Property-write round trips (C6) -/

/-- One property-write site of the run: the value written, the value the
write reply is asserted to echo, and the value the follow-up read is
asserted to return. -/
structure PropertyWriteSite where
  written : Int
  echoAsserted : Int
  readAsserted : Int
deriving DecidableEq

/-- The two write sites: the REST `PUT /properties/brightness` with 25
(lines 200-206) and the WebSocket `setProperty` with 10 (lines 356-368). -/
def propertyWriteSites : List PropertyWriteSite :=
  [⟨25, 25, 25⟩, ⟨10, 10, 10⟩]

/-- The pair of assertions run at a write site against the actual echo and
the actual follow-up read. -/
def writeSiteCheck (w : PropertyWriteSite) (echoReply readReply : Int) : Bool :=
  echoReply == w.echoAsserted && readReply == w.readAsserted

/-! # Helper lemmas -/

theorem lists_equal_perm_left {a a' b : List String} (h : a.Perm a') :
    lists_equal a b = lists_equal a' b := by
  unfold lists_equal
  rw [h.length_eq, ((h.dedup).filter _).length_eq]

/-! # Claim theorems -/

/-- Claim C9: `lists_equal` is not reflexive on lists with a repeated
element: for every list `a` that is not duplicate-free, `lists_equal a a`
returns `false`, because the intersection of the two (deduplicated) element
sets has fewer elements than the list. -/
theorem lists_equal_irreflexive_on_dups (a : List String) (h : ¬ a.Nodup) :
    lists_equal a a = false := by
  have hsub : a.dedup.Sublist a := a.dedup_sublist
  have hlt : a.dedup.length < a.length := by
    rcases Nat.lt_or_ge a.dedup.length a.length with h' | h'
    · exact h'
    · exact absurd ((hsub.eq_of_length (Nat.le_antisymm hsub.length_le h')) ▸ a.nodup_dedup) h
  have hfil : a.dedup.filter (fun x => x ∈ a.dedup) = a.dedup :=
    List.filter_eq_self.mpr (fun x hx => by simpa using hx)
  simp only [lists_equal, hfil, Bool.and_eq_false_iff, beq_eq_false_iff_ne]
  exact Or.inr (Nat.ne_of_lt hlt)

/-- Claim C9 witness: a concrete duplicated list on which `lists_equal` is
not reflexive. -/
theorem lists_equal_irreflexive_on_dups_app :
    lists_equal ["Light", "Light"] ["Light", "Light"] = false :=
  lists_equal_irreflexive_on_dups ["Light", "Light"] (by decide)

/-- Claim C5: every event-log count asserted during the run equals the
number of fade actions triggered so far: the asserted counts are 0 (before
any action), 1 (twice, after the first REST action), and 3 (after the third
action overall), so the expected count tracks the actions executed. -/
theorem event_counts_track_actions :
    eventCountsTrack testSequence 0 = true ∧
    testSequence.filterMap assertedCountOf = [0, 1, 1, 3] :=
  ⟨rfl, rfl⟩

/-- Claim C6: at each property-write site of the run (REST `PUT` of
`brightness`, WebSocket `setProperty` of `brightness`), the value the write
reply is asserted to echo and the value the follow-up read is asserted to
return both equal the written value, and the site's check passes exactly
when the actual echo and the actual read equal the written value. -/
theorem property_write_round_trip :
    (∀ w ∈ propertyWriteSites, w.echoAsserted = w.written ∧ w.readAsserted = w.written) ∧
    (∀ w ∈ propertyWriteSites, ∀ e r : Int,
      writeSiteCheck w e r = true ↔ (e = w.written ∧ r = w.written)) := by
  refine ⟨by decide, ?_⟩
  intro w hw e r
  fin_cases hw <;> simp [writeSiteCheck]

/-- Claim C6 witness: the REST write site with matching echo and read. -/
theorem property_write_round_trip_app :
    writeSiteCheck ⟨25, 25, 25⟩ 25 25 = true :=
  (property_write_round_trip.2 ⟨25, 25, 25⟩ (by decide) 25 25).mpr ⟨rfl, rfl⟩

/-- Claim C7 counterexample: the tag list
`["OnOffSwitch", "OnOffSwitch", "Light"]` denotes the same set of tags as
the expected list (each contains every element of the other), yet
`lists_equal` rejects it, so acceptance is not equivalent to denoting the
same set. -/
theorem lists_equal_rejects_same_set_with_duplicates :
    (["OnOffSwitch", "OnOffSwitch", "Light"] : List String).all
        (fun x => x ∈ expectedTypes) = true ∧
    expectedTypes.all
        (fun x => x ∈ (["OnOffSwitch", "OnOffSwitch", "Light"] : List String)) = true ∧
    lists_equal ["OnOffSwitch", "OnOffSwitch", "Light"] expectedTypes = false :=
  ⟨by decide, by decide, by decide⟩

/-- Claim C7 as amended: the `@type` comparison accepts a received tag list
exactly when it is a permutation of `["OnOffSwitch", "Light"]` — the same
set of tags with no duplicated element — and its verdict is invariant under
any permutation of the received list. -/
theorem lists_equal_characterization :
    (∀ a : List String, lists_equal a expectedTypes = true ↔
      (a = ["OnOffSwitch", "Light"] ∨ a = ["Light", "OnOffSwitch"])) ∧
    (∀ (a a' b : List String), a.Perm a' → lists_equal a b = lists_equal a' b) := by
  constructor
  · intro a
    constructor
    · intro h
      simp only [lists_equal, expectedTypes, Bool.and_eq_true, beq_iff_eq,
        List.length_cons, List.length_nil] at h
      obtain ⟨hlen, hint⟩ := h
      rcases a with _ | ⟨x, a⟩
      · simp at hlen
      rcases a with _ | ⟨y, a⟩
      · simp at hlen
      rcases a with _ | ⟨z, a⟩
      swap
      · simp at hlen
      have hded : (["OnOffSwitch", "Light"] : List String).dedup = ["OnOffSwitch", "Light"] := by
        decide
      simp only [hded] at hint
      by_cases hxy : x = y
      · subst hxy
        have h1 : List.dedup [x, x] = [x] := by
          rw [List.dedup_cons_of_mem (List.mem_singleton.mpr rfl),
            List.dedup_cons_of_not_mem (List.not_mem_nil x), List.dedup_nil]
        rw [h1] at hint
        have h2 := List.length_filter_le
          (fun v => decide (v ∈ (["OnOffSwitch", "Light"] : List String))) [x]
        simp only [List.length_cons, List.length_nil, hint] at h2
        omega
      · have h1 : List.dedup [x, y] = [x, y] := by
          rw [List.dedup_cons_of_not_mem (by simp [hxy]),
            List.dedup_cons_of_not_mem (List.not_mem_nil y), List.dedup_nil]
        rw [h1] at hint
        by_cases hx : x ∈ (["OnOffSwitch", "Light"] : List String)
        · by_cases hy : y ∈ (["OnOffSwitch", "Light"] : List String)
          · simp only [List.mem_cons, List.mem_singleton, List.not_mem_nil, or_false] at hx hy
            rcases hx with rfl | rfl <;> rcases hy with rfl | rfl <;> simp_all
          · simp only [List.mem_cons, List.not_mem_nil, or_false] at hx hy
            simp [List.filter_cons, hx, hy] at hint
        · by_cases hy : y ∈ (["OnOffSwitch", "Light"] : List String)
          · simp only [List.mem_cons, List.not_mem_nil, or_false] at hx hy
            simp [List.filter_cons, hx, hy] at hint
          · simp only [List.mem_cons, List.not_mem_nil, or_false] at hx hy
            simp [List.filter_cons, hx, hy] at hint
    · intro h
      rcases h with h | h <;> subst h <;> decide
  · intro a a' b h
    exact lists_equal_perm_left h

/-- Claim C7 witness: the verdict is unchanged under swapping the two tags,
and the swapped list is accepted. -/
theorem lists_equal_characterization_app :
    lists_equal ["Light", "OnOffSwitch"] expectedTypes =
      lists_equal ["OnOffSwitch", "Light"] expectedTypes ∧
    lists_equal ["Light", "OnOffSwitch"] expectedTypes = true :=
  ⟨lists_equal_characterization.2 ["Light", "OnOffSwitch"] ["OnOffSwitch", "Light"]
      expectedTypes (by decide),
   (lists_equal_characterization.1 ["Light", "OnOffSwitch"]).mpr (Or.inr rfl)⟩

/-- Claim C10: every REST request built by `http_request` carries an
`Accept: application/json` header and a `Host` header of `localhost` —
bare when the base URL has no colon, with the base URL's port appended when
the base URL is `host:port` — and its URL has had all trailing `/`
characters stripped. -/
theorem http_request_headers_and_url
    (proto base pfx path : String) (auth : Option String) (hasData : Bool)
    (host port : String) :
    (http_request_headers base auth hasData).lookup "Accept" = some "application/json" ∧
    (http_request_headers base auth hasData).lookup "Host" =
      some (http_request_fake_host base) ∧
    (':' ∉ base.data → http_request_fake_host base = "localhost") ∧
    (base = host ++ ":" ++ port → (∀ c ∈ host.data, c ≠ ':') →
      (∀ c ∈ port.data, c ≠ ':') →
      http_request_fake_host base = "localhost:" ++ port) ∧
    (http_request_url proto base pfx path).data.getLast? ≠ some '/' := by
  refine ⟨rfl, rfl, ?_, ?_, ?_⟩
  · intro h
    have hc : base.data.contains ':' = false := by
      by_contra hcb
      rw [Bool.not_eq_false] at hcb
      exact h (List.elem_iff.mp hcb)
    simp only [http_request_fake_host, hc, Bool.false_eq_true, if_false]
  · intro hbase hhost hport
    cases host with
    | mk hl =>
      cases port with
      | mk pl =>
        subst hbase
        have hdata : ((String.mk hl) ++ ":" ++ (String.mk pl)).data = hl ++ ':' :: pl := by
          simp [String.data_append]
        have hcon : (hl ++ ':' :: pl).contains ':' = true :=
          List.elem_iff.mpr (by simp)
        have h1 : (hl ++ ':' :: pl).dropWhile (fun c => c != ':') = ':' :: pl := by
          rw [@List.dropWhile_append_of_pos Char (fun c => c != ':') hl (':' :: pl)
            (fun a ha => by simpa using hhost a ha)]
          simp [List.dropWhile_cons]
        have h2 : pl.takeWhile (fun c => c != ':') = pl := by
          have h3 := @List.takeWhile_append_of_pos Char (fun c => c != ':') pl []
            (fun a ha => by simpa using hport a ha)
          simpa using h3
        have h4 : splitAfterColon (hl ++ ':' :: pl) = pl := by
          rw [splitAfterColon, h1]
          simpa using h2
        simp only [http_request_fake_host, hdata, hcon, if_true]
        rw [h4]
        rfl
  · rw [http_request_url, rstripSlash]
    intro hsome
    rw [List.getLast?_reverse] at hsome
    have hd := List.head?_dropWhile_not (fun c => c == '/')
      (proto ++ "://" ++ base ++ pfx ++ path).data.reverse
    rw [hsome] at hd
    simp at hd

/-- Claim C10 witness: the default configuration base URL
`127.0.0.1:8888` with a trailing-slash path. -/
theorem http_request_headers_and_url_app :
    http_request_fake_host "127.0.0.1:8888" = "localhost:8888" ∧
    (http_request_url "http" "127.0.0.1:8888" "" "/properties/").data.getLast? ≠
      some '/' :=
  ⟨(http_request_headers_and_url "http" "127.0.0.1:8888" "" "/properties/" none false
      "127.0.0.1" "8888").2.2.2.1 rfl (by decide) (by decide),
   (http_request_headers_and_url "http" "127.0.0.1:8888" "" "/properties/" none false
      "127.0.0.1" "8888").2.2.2.2⟩

theorem matchDigits_eq_some : ∀ (n : Nat) (l r : List Char),
    matchDigits n l = some r ↔
      ∃ t, l = t ++ r ∧ t.length = n ∧ ∀ c ∈ t, c.isDigit = true := by
  intro n
  induction n with
  | zero =>
    intro l r
    simp only [matchDigits, Option.some.injEq]
    constructor
    · rintro rfl
      exact ⟨[], rfl, rfl, by simp⟩
    · rintro ⟨t, hl, ht, _⟩
      rw [List.length_eq_zero] at ht
      subst ht
      simpa using hl
  | succ n ih =>
    intro l r
    cases l with
    | nil =>
      simp only [matchDigits]
      constructor
      · intro h
        exact absurd h (by simp)
      · rintro ⟨t, hl, ht, _⟩
        have hlen := congrArg List.length hl
        simp only [List.length_nil, List.length_append, ht] at hlen
        exact absurd hlen (by omega)
    | cons c l' =>
      simp only [matchDigits]
      by_cases hd : c.isDigit
      · rw [if_pos hd, ih]
        constructor
        · rintro ⟨t, hl, ht, hdig⟩
          refine ⟨c :: t, by simp [hl], by simp [ht], ?_⟩
          intro x hx
          rcases List.mem_cons.mp hx with rfl | hx
          · exact hd
          · exact hdig x hx
        · rintro ⟨t, hl, ht, hdig⟩
          rcases t with _ | ⟨c0, t'⟩
          · simp at ht
          · simp only [List.cons_append, List.cons.injEq] at hl
            obtain ⟨rfl, hl'⟩ := hl
            exact ⟨t', hl', by simpa using ht, fun x hx => hdig x (List.mem_cons_of_mem _ hx)⟩
      · rw [if_neg hd]
        constructor
        · intro h
          exact absurd h (by simp)
        · rintro ⟨t, hl, ht, hdig⟩
          rcases t with _ | ⟨c0, t'⟩
          · simp at ht
          · simp only [List.cons_append, List.cons.injEq] at hl
            exact absurd (hl.1 ▸ hdig c0 (by simp)) hd

theorem matchLit_eq_some (c : Char) (l r : List Char) :
    matchLit c l = some r ↔ l = c :: r := by
  cases l with
  | nil => simp [matchLit]
  | cons d l' =>
    rw [matchLit]
    by_cases hd : d = c
    · subst hd
      simp
    · have hb : (d == c) = false := by simpa using hd
      simp [hb, hd]

theorem matchSign_eq_some (l r : List Char) :
    matchSign l = some r ↔ ∃ c, l = c :: r ∧ (c = '+' ∨ c = '-') := by
  cases l with
  | nil => simp [matchSign]
  | cons d l' =>
    rw [matchSign]
    by_cases hd : d = '+' ∨ d = '-'
    · have hb : (d == '+' || d == '-') = true := by
        rcases hd with rfl | rfl <;> simp
      simp only [hb, if_true, Option.some.injEq]
      constructor
      · rintro rfl
        exact ⟨d, rfl, hd⟩
      · rintro ⟨c, hc, _⟩
        simp only [List.cons.injEq] at hc
        exact hc.2
    · have hb : (d == '+' || d == '-') = false := by
        push_neg at hd
        simp [hd.1, hd.2]
      simp only [hb, Bool.false_eq_true, if_false]
      constructor
      · intro h
        exact absurd h (by simp)
      · rintro ⟨c, hc, hcs⟩
        simp only [List.cons.injEq] at hc
        exact absurd (hc.1 ▸ hcs) hd

theorem timeRegexCore_eq_some (l r : List Char) :
    timeRegexCore l = some r ↔ ∃ t, SpecTimestampForm t ∧ l = t ++ r := by
  constructor
  · intro h
    simp only [timeRegexCore, Option.bind_eq_some] at h
    obtain ⟨a1, h1, a2, h2, a3, h3, a4, h4, a5, h5, a6, h6, a7, h7, a8, h8,
      a9, h9, a10, h10, a11, h11, a12, h12, a13, h13, a14, h14, h15⟩ := h
    obtain ⟨y, hy, hylen, hydig⟩ := (matchDigits_eq_some 4 l a1).mp h1
    have ha1 := (matchLit_eq_some '-' a1 a2).mp h2
    obtain ⟨mo, hmo, hmolen, hmodig⟩ := (matchDigits_eq_some 2 a2 a3).mp h3
    have ha3 := (matchLit_eq_some '-' a3 a4).mp h4
    obtain ⟨d, hdd, hdlen, hddig⟩ := (matchDigits_eq_some 2 a4 a5).mp h5
    have ha5 := (matchLit_eq_some 'T' a5 a6).mp h6
    obtain ⟨hh, hhh, hhlen, hhdig⟩ := (matchDigits_eq_some 2 a6 a7).mp h7
    have ha7 := (matchLit_eq_some ':' a7 a8).mp h8
    obtain ⟨mi, hmi, hmilen, hmidig⟩ := (matchDigits_eq_some 2 a8 a9).mp h9
    have ha9 := (matchLit_eq_some ':' a9 a10).mp h10
    obtain ⟨se, hse, hselen, hsedig⟩ := (matchDigits_eq_some 2 a10 a11).mp h11
    obtain ⟨sg, hsg, hsgok⟩ := (matchSign_eq_some a11 a12).mp h12
    obtain ⟨oh, hoh, hohlen, hohdig⟩ := (matchDigits_eq_some 2 a12 a13).mp h13
    have ha13 := (matchLit_eq_some ':' a13 a14).mp h14
    obtain ⟨om, homm, homlen, homdig⟩ := (matchDigits_eq_some 2 a14 r).mp h15
    refine ⟨y ++ '-' :: (mo ++ '-' :: (d ++ 'T' :: (hh ++ ':' :: (mi ++ ':' ::
      (se ++ sg :: (oh ++ ':' :: om)))))),
      ⟨y, mo, d, hh, mi, se, oh, om, sg, rfl, hylen, hmolen, hdlen, hhlen,
        hmilen, hselen, hohlen, homlen, ?_, hsgok⟩, ?_⟩
    · intro c hc
      simp only [List.mem_append] at hc
      rcases hc with ((((((hc | hc) | hc) | hc) | hc) | hc) | hc) | hc
      exacts [hydig c hc, hmodig c hc, hddig c hc, hhdig c hc, hmidig c hc,
        hsedig c hc, hohdig c hc, homdig c hc]
    · subst hy ha1 hmo ha3 hdd ha5 hhh ha7 hmi ha9 hse hsg hoh ha13 homm
      simp [List.append_assoc]
  · rintro ⟨t, ⟨y, mo, d, hh, mi, se, oh, om, sg, rfl, hylen, hmolen, hdlen,
      hhlen, hmilen, hselen, hohlen, homlen, hdig, hsgok⟩, rfl⟩
    simp only [timeRegexCore, Option.bind_eq_some]
    refine ⟨('-' :: (mo ++ '-' :: (d ++ 'T' :: (hh ++ ':' :: (mi ++ ':' ::
        (se ++ sg :: (oh ++ ':' :: om))))))) ++ r,
      (matchDigits_eq_some 4 _ _).mpr ⟨y, by simp, hylen,
        fun c hc => hdig c (by simp only [List.mem_append]; tauto)⟩, ?_⟩
    refine ⟨(mo ++ '-' :: (d ++ 'T' :: (hh ++ ':' :: (mi ++ ':' ::
        (se ++ sg :: (oh ++ ':' :: om)))))) ++ r,
      (matchLit_eq_some '-' _ _).mpr (by simp), ?_⟩
    refine ⟨('-' :: (d ++ 'T' :: (hh ++ ':' :: (mi ++ ':' ::
        (se ++ sg :: (oh ++ ':' :: om)))))) ++ r,
      (matchDigits_eq_some 2 _ _).mpr ⟨mo, by simp, hmolen,
        fun c hc => hdig c (by simp only [List.mem_append]; tauto)⟩, ?_⟩
    refine ⟨(d ++ 'T' :: (hh ++ ':' :: (mi ++ ':' ::
        (se ++ sg :: (oh ++ ':' :: om))))) ++ r,
      (matchLit_eq_some '-' _ _).mpr (by simp), ?_⟩
    refine ⟨('T' :: (hh ++ ':' :: (mi ++ ':' ::
        (se ++ sg :: (oh ++ ':' :: om))))) ++ r,
      (matchDigits_eq_some 2 _ _).mpr ⟨d, by simp, hdlen,
        fun c hc => hdig c (by simp only [List.mem_append]; tauto)⟩, ?_⟩
    refine ⟨(hh ++ ':' :: (mi ++ ':' :: (se ++ sg :: (oh ++ ':' :: om)))) ++ r,
      (matchLit_eq_some 'T' _ _).mpr (by simp), ?_⟩
    refine ⟨(':' :: (mi ++ ':' :: (se ++ sg :: (oh ++ ':' :: om)))) ++ r,
      (matchDigits_eq_some 2 _ _).mpr ⟨hh, by simp, hhlen,
        fun c hc => hdig c (by simp only [List.mem_append]; tauto)⟩, ?_⟩
    refine ⟨(mi ++ ':' :: (se ++ sg :: (oh ++ ':' :: om))) ++ r,
      (matchLit_eq_some ':' _ _).mpr (by simp), ?_⟩
    refine ⟨(':' :: (se ++ sg :: (oh ++ ':' :: om))) ++ r,
      (matchDigits_eq_some 2 _ _).mpr ⟨mi, by simp, hmilen,
        fun c hc => hdig c (by simp only [List.mem_append]; tauto)⟩, ?_⟩
    refine ⟨(se ++ sg :: (oh ++ ':' :: om)) ++ r,
      (matchLit_eq_some ':' _ _).mpr (by simp), ?_⟩
    refine ⟨(sg :: (oh ++ ':' :: om)) ++ r,
      (matchDigits_eq_some 2 _ _).mpr ⟨se, by simp, hselen,
        fun c hc => hdig c (by simp only [List.mem_append]; tauto)⟩, ?_⟩
    refine ⟨(oh ++ ':' :: om) ++ r,
      (matchSign_eq_some _ _).mpr ⟨sg, by simp, hsgok⟩, ?_⟩
    refine ⟨(':' :: om) ++ r,
      (matchDigits_eq_some 2 _ _).mpr ⟨oh, by simp, hohlen,
        fun c hc => hdig c (by simp only [List.mem_append]; tauto)⟩, ?_⟩
    refine ⟨om ++ r, (matchLit_eq_some ':' _ _).mpr (by simp), ?_⟩
    exact (matchDigits_eq_some 2 _ _).mpr ⟨om, rfl, homlen,
      fun c hc => hdig c (by simp only [List.mem_append]; tauto)⟩

theorem time_regex_match_eq (s : String) :
    time_regex_match s = true ↔
      timeRegexCore s.data = some [] ∨ timeRegexCore s.data = some ['\n'] := by
  rw [time_regex_match]
  split
  · next heq => simp [heq]
  · next heq => simp [heq]
  · next h1 h2 =>
    constructor
    · intro h
      exact absurd h (by simp)
    · rintro (h | h)
      · exact absurd h h1
      · exact absurd h h2

theorem specTimestampForm_length {t : List Char} (h : SpecTimestampForm t) :
    t.length = 25 := by
  obtain ⟨y, mo, d, hh, mi, se, oh, om, sg, rfl, hylen, hmolen, hdlen, hhlen,
    hmilen, hselen, hohlen, homlen, _, _⟩ := h
  simp [List.length_append, hylen, hmolen, hdlen, hhlen, hmilen, hselen,
    hohlen, homlen]

/-- Claim C8 counterexample: the 26-character string consisting of a valid
timestamp followed by a newline is accepted by the `_TIME_REGEX` check
(Python `$` matches just before a trailing newline), yet it does not have
the fixed-width 25-character form, so acceptance is not equivalent to
having the fixed-width form. -/
theorem time_regex_accepts_trailing_newline :
    time_regex_match "2020-01-01T00:00:00+00:00\n" = true ∧
    ¬ SpecTimestampForm ("2020-01-01T00:00:00+00:00\n".data) := by
  refine ⟨rfl, fun h => ?_⟩
  have h25 := specTimestampForm_length h
  have h26 : ("2020-01-01T00:00:00+00:00\n".data).length = 26 := rfl
  rw [h26] at h25
  exact absurd h25 (by omega)

/-- Claim C8 as amended: the timestamp check accepts a string exactly when
it has the fixed-width form `YYYY-MM-DDTHH:MM:SS(+|-)HH:MM` — explicit
numeric offset, second resolution, so in particular a `Z` designator,
fractional seconds, or a missing offset are rejected — or is such a form
followed by one trailing newline. -/
theorem time_regex_characterization (s : String) :
    time_regex_match s = true ↔
      (SpecTimestampForm s.data ∨
        ∃ t, s.data = t ++ ['\n'] ∧ SpecTimestampForm t) := by
  rw [time_regex_match_eq]
  constructor
  · rintro (h | h)
    · obtain ⟨t, hspec, heq⟩ := (timeRegexCore_eq_some s.data []).mp h
      left
      rw [List.append_nil] at heq
      rw [heq]
      exact hspec
    · obtain ⟨t, hspec, heq⟩ := (timeRegexCore_eq_some s.data ['\n']).mp h
      exact Or.inr ⟨t, heq, hspec⟩
  · rintro (h | ⟨t, heq, hspec⟩)
    · exact Or.inl ((timeRegexCore_eq_some s.data []).mpr ⟨s.data, h, by simp⟩)
    · exact Or.inr ((timeRegexCore_eq_some s.data ['\n']).mpr ⟨t, hspec, heq⟩)

/-- Claim C8 witness: a well-formed timestamp is accepted, derived from the
characterization at its explicit field decomposition. -/
theorem time_regex_characterization_app :
    time_regex_match "2020-01-01T00:00:00+00:00" = true :=
  (time_regex_characterization "2020-01-01T00:00:00+00:00").mpr
    (Or.inl ⟨"2020".data, "01".data, "01".data, "00".data, "00".data,
      "00".data, "00".data, "00".data, '+', rfl, rfl, rfl, rfl, rfl, rfl,
      rfl, rfl, rfl, by decide, Or.inl rfl⟩)

/-- Claim C3 counterexample: a completed action whose `timeCompleted`
(June 2020) chronologically precedes its `timeRequested` (June 2021) passes
every assertion the harness runs against a completed action — the code
checks only the format of the two timestamps, never their order. -/
theorem completed_check_accepts_reversed_timestamps :
    completedActionCheck "" "1" 50 2000 reversedTimesAction = true ∧
    reversedTimesAction.timeRequested = some "2021-06-15T12:00:00+00:00" ∧
    reversedTimesAction.timeCompleted = some "2020-06-15T12:00:00+00:00" ∧
    timestampKey "2020-06-15T12:00:00+00:00" <
      timestampKey "2021-06-15T12:00:00+00:00" :=
  ⟨rfl, rfl, rfl, by decide⟩

/-- Claim C3 as amended: for every action the harness observes in the
completed state, it verifies that both timestamps are present and match the
fixed timestamp format; it performs no comparison between the two values,
so a completed action whose `timeCompleted` precedes its `timeRequested` is
accepted. -/
theorem completed_check_requires_formatted_timestamps
    (pfx actionId : String) (b d : Int) (a : ActionRecord)
    (h : completedActionCheck pfx actionId b d a = true) :
    (∃ tr, a.timeRequested = some tr ∧ time_regex_match tr = true) ∧
    (∃ tc, a.timeCompleted = some tc ∧ time_regex_match tc = true) := by
  simp only [completedActionCheck, Bool.and_eq_true] at h
  obtain ⟨⟨⟨⟨_, _⟩, hreq⟩, hcomp⟩, _⟩ := h
  constructor
  · cases htr : a.timeRequested with
    | none => rw [htr] at hreq; exact absurd hreq (by simp [optTimeOk])
    | some tr =>
      rw [htr] at hreq
      exact ⟨tr, rfl, hreq⟩
  · cases htc : a.timeCompleted with
    | none => rw [htc] at hcomp; exact absurd hcomp (by simp [optTimeOk])
    | some tc =>
      rw [htc] at hcomp
      exact ⟨tc, rfl, hcomp⟩

/-- Claim C3 witness: the presence-and-format conclusion at a well-formed
completed action. -/
theorem completed_check_requires_formatted_timestamps_app :
    (∃ tr, wellFormedAction.timeRequested = some tr ∧ time_regex_match tr = true) ∧
    (∃ tc, wellFormedAction.timeCompleted = some tc ∧ time_regex_match tc = true) :=
  completed_check_requires_formatted_timestamps "" "1" 50 2000 wellFormedAction rfl

theorem validateLinks_true_iff (proto pfx : String) :
    ∀ (links : List Link) (found : Bool),
      validateLinks proto pfx links found = true ↔
        ((∀ l ∈ links, l.rel = "alternate" → altLinkOk proto pfx l = true) ∧
          (found = true ∨ ∃ l ∈ links, l.rel = "alternate" ∧ l.mediaType = none)) := by
  intro links
  induction links with
  | nil =>
    intro found
    simp [validateLinks]
  | cons hd tl ih =>
    intro found
    obtain ⟨rel, mt, href⟩ := hd
    by_cases hrel : rel = "alternate"
    · subst hrel
      cases mt with
      | some m =>
        rw [validateLinks, if_pos (by rfl), Bool.and_eq_true, Bool.and_eq_true, ih]
        simp only [altLinkOk, List.forall_mem_cons, List.exists_mem_cons_iff,
          beq_iff_eq]
        simp
        tauto
      | none =>
        rw [validateLinks, if_pos (by rfl), Bool.and_eq_true, ih]
        simp only [altLinkOk, List.forall_mem_cons, List.exists_mem_cons_iff,
          beq_iff_eq]
        simp
    · have hb : (rel == "alternate") = false := by simpa using hrel
      rw [validateLinks, if_neg (by simp [hb]), ih]
      simp only [List.forall_mem_cons, List.exists_mem_cons_iff]
      simp [hrel]

/-- Claim C4 counterexample: a `links` remainder holding a single
WebSocket alternate link and no `text/html` alternate at all is accepted by
the description validation, so the validation does not require exactly one
`text/html` alternate link. -/
theorem links_check_accepts_zero_html_alternate :
    validateRemainingLinks "http" "" wsOnlyLinks = true ∧
    countHtmlAlternate wsOnlyLinks = 0 :=
  ⟨rfl, rfl⟩

/-- Claim C4 as amended: the validation accepts the remaining links exactly
when the list is nonempty, every alternate link carrying a `mediaType` has
`text/html` and the bare path-prefix href, every alternate link without a
`mediaType` matches the WebSocket URL pattern (scheme `wss` when fetched
over https, `ws` otherwise, then a host, then the path prefix), and at
least one such WebSocket alternate exists; the number of `text/html`
alternates (zero, one, or several) is not constrained. -/
theorem links_check_characterization (proto pfx : String) (links : List Link) :
    validateRemainingLinks proto pfx links = true ↔
      (links ≠ [] ∧
        (∀ l ∈ links, l.rel = "alternate" → altLinkOk proto pfx l = true) ∧
        ∃ l ∈ links, l.rel = "alternate" ∧ l.mediaType = none) := by
  rw [validateRemainingLinks, Bool.and_eq_true, validateLinks_true_iff]
  simp only [Bool.not_eq_true', List.isEmpty_iff, Bool.false_eq_true, false_or,
    Bool.not_eq_true, and_assoc]
  constructor
  · rintro ⟨hne, hall, hex⟩
    exact ⟨by simpa using hne, hall, hex⟩
  · rintro ⟨hne, hall, hex⟩
    exact ⟨by simpa using hne, hall, hex⟩

/-- Claim C4 witness: the characterization evaluated at the
WebSocket-only link list. -/
theorem links_check_characterization_app :
    wsOnlyLinks ≠ [] ∧
    (∀ l ∈ wsOnlyLinks, l.rel = "alternate" → altLinkOk "http" "" l = true) ∧
    ∃ l ∈ wsOnlyLinks, l.rel = "alternate" ∧ l.mediaType = none :=
  (links_check_characterization "http" "" wsOnlyLinks).mp rfl

theorem skipPropertyStatus_filter (msgs : List WsMessage) (m : WsMessage)
    (rest : List WsMessage) (h : skipPropertyStatus msgs = some (m, rest)) :
    msgs.filter isActionStatusMsg = (m :: rest).filter isActionStatusMsg := by
  induction msgs with
  | nil => simp [skipPropertyStatus] at h
  | cons hd tl ih =>
    cases hd with
    | propertyStatus b =>
      simp only [skipPropertyStatus] at h
      have hps : List.filter isActionStatusMsg (WsMessage.propertyStatus b :: tl) =
          List.filter isActionStatusMsg tl := by
        simp [List.filter_cons, isActionStatusMsg]
      rw [hps]
      exact ih h
    | actionStatus a =>
      simp only [skipPropertyStatus, Option.some.injEq, Prod.mk.injEq] at h
      obtain ⟨rfl, rfl⟩ := h
      rfl
    | event d ts =>
      simp only [skipPropertyStatus, Option.some.injEq, Prod.mk.injEq] at h
      obtain ⟨rfl, rfl⟩ := h
      rfl
    | other t =>
      simp only [skipPropertyStatus, Option.some.injEq, Prod.mk.injEq] at h
      obtain ⟨rfl, rfl⟩ := h
      rfl

theorem checkActionStatus_status {pfx : String} {b d : Int} {st : String}
    {cr cc : Bool} {m : WsMessage}
    (h : checkActionStatus pfx b d st cr cc m = true) :
    isActionStatusMsg m = true ∧ statusOfMsg m = st := by
  cases m with
  | actionStatus a =>
    simp only [checkActionStatus, Bool.and_eq_true, beq_iff_eq] at h
    exact ⟨rfl, h.1.1.2⟩
  | propertyStatus b' => simp [checkActionStatus] at h
  | event d' ts => simp [checkActionStatus] at h
  | other t => simp [checkActionStatus] at h

/-- Claim C1: for each of the two `requestAction` commands issued over the
WebSocket channel, the harness accepts the notification stream only if the
first two `actionStatus` messages in it carry status `created` and then
`pending`, in that order; a stream whose first two `actionStatus` messages
arrive in any other order is rejected, whatever other message kinds are
interleaved. -/
theorem ws_first_two_action_statuses_created_pending (pfx : String)
    (msgs : List WsMessage) :
    (ws_action_phase1 pfx msgs = Except.ok () →
      firstTwoActionStatuses msgs = some ("created", "pending")) ∧
    (ws_action_phase2 pfx msgs = Except.ok () →
      firstTwoActionStatuses msgs = some ("created", "pending")) := by
  constructor
  · intro h
    rw [ws_action_phase1] at h
    cases hskip : skipPropertyStatus msgs with
    | none => simp [hskip] at h
    | some pr =>
      obtain ⟨m1, rest1⟩ := pr
      simp only [hskip] at h
      by_cases h1 : checkActionStatus pfx 90 1000 "created" false false m1 = true
      · cases rest1 with
        | nil => simp [h1] at h
        | cons m2 rest2 =>
          by_cases h2 : checkActionStatus pfx 90 1000 "pending" false false m2 = true
          · obtain ⟨hm1as, hm1st⟩ := checkActionStatus_status h1
            obtain ⟨hm2as, hm2st⟩ := checkActionStatus_status h2
            rw [firstTwoActionStatuses,
              skipPropertyStatus_filter msgs m1 (m2 :: rest2) hskip]
            simp only [List.filter_cons, hm1as, hm2as, if_true, hm1st, hm2st]
          · simp [h1, h2] at h
      · simp [h1] at h
  · intro h
    cases msgs with
    | nil => simp [ws_action_phase2] at h
    | cons m1 rest1 =>
      simp only [ws_action_phase2] at h
      by_cases h1 : checkActionStatus pfx 100 500 "created" true false m1 = true
      · cases rest1 with
        | nil => simp [h1] at h
        | cons m2 rest2 =>
          by_cases h2 : checkActionStatus pfx 100 500 "pending" true false m2 = true
          · obtain ⟨hm1as, hm1st⟩ := checkActionStatus_status h1
            obtain ⟨hm2as, hm2st⟩ := checkActionStatus_status h2
            rw [firstTwoActionStatuses]
            simp only [List.filter_cons, hm1as, hm2as, if_true, hm1st, hm2st]
          · simp [h1, h2] at h
      · simp [h1] at h

/-- Claim C1 witness: a concrete accepted stream — `created`, `pending`,
then the completion pair — whose first two `actionStatus` messages are
`created` and `pending`. -/
theorem ws_first_two_action_statuses_created_pending_app :
    firstTwoActionStatuses sampleStream1 = some ("created", "pending") :=
  (ws_first_two_action_statuses_created_pending "" sampleStream1).1 rfl

theorem flags3Count_update_le (f : Flags3) (f' : Flags3)
    (h : f' = { f with propertyReceived := true } ∨
      f' = { f with eventReceived := true } ∨
      f' = { f with actionReceived := true }) :
    flags3Count f' ≤ flags3Count f + 1 := by
  obtain ⟨p, e, a⟩ := f
  rcases h with rfl | rfl | rfl <;>
    cases p <;> cases e <;> cases a <;> simp [flags3Count]

theorem loop3step_count {pfx : String} {f f' : Flags3} {m : WsMessage}
    (h : loop3step pfx f m = Except.ok f') :
    flags3Count f' ≤ flags3Count f + 1 := by
  cases m with
  | propertyStatus b =>
    rw [loop3step] at h
    by_cases hb : (b == 100) = true
    · rw [if_pos hb] at h
      simp only [Except.ok.injEq] at h
      exact flags3Count_update_le f f' (Or.inl h.symm)
    · rw [if_neg hb] at h
      simp at h
  | event d ts =>
    rw [loop3step] at h
    by_cases hb : (d == 102 && time_regex_match ts) = true
    · rw [if_pos hb] at h
      simp only [Except.ok.injEq] at h
      exact flags3Count_update_le f f' (Or.inr (Or.inl h.symm))
    · rw [if_neg hb] at h
      simp at h
  | actionStatus a =>
    rw [loop3step] at h
    by_cases hb : checkActionStatus pfx 100 500 "completed" true true
        (WsMessage.actionStatus a) = true
    · rw [if_pos hb] at h
      simp only [Except.ok.injEq] at h
      exact flags3Count_update_le f f' (Or.inr (Or.inr h.symm))
    · rw [if_neg hb] at h
      simp at h
  | other t =>
    rw [loop3step] at h
    simp only [Except.ok.injEq] at h
    simp [h.symm]

theorem loop3step_other_ok (pfx : String) (f : Flags3) (t : String) :
    loop3step pfx f (WsMessage.other t) = Except.ok f :=
  rfl

theorem flags3Count_complete {f : Flags3}
    (h : (f.propertyReceived && f.eventReceived && f.actionReceived) = true) :
    flags3Count f = 3 := by
  obtain ⟨p, e, a⟩ := f
  simp only [Bool.and_eq_true] at h
  obtain ⟨⟨rfl, rfl⟩, rfl⟩ := h
  rfl

/-- Claim C2 counterexample: in the three-message collection phase, a
message whose `messageType` (`foo`) is not among the expected kinds is
consumed by the dispatch without any effect — it is silently ignored at
that point rather than causing an immediate hard failure. -/
theorem ws_collect3_ignores_unknown_kind :
    messageTypeOf (WsMessage.other "foo") ∉
      ["propertyStatus", "event", "actionStatus"] ∧
    loop3step "" ⟨false, false, false⟩ (WsMessage.other "foo") =
      Except.ok ⟨false, false, false⟩ :=
  ⟨by decide, rfl⟩

/-- Claim C2 as amended: in the two-message collection phase an unexpected
`messageType` raises `Wrong message: ...` immediately (the dispatch has an
`else` branch), while in the three-message phase an unexpected
`messageType` is silently passed over by the dispatch; that phase still
ends in a hard failure whenever one of its three receives is an unexpected
kind, because the wasted receive leaves at least one expected-kind flag
unset. -/
theorem ws_collect_unknown_kind_handling :
    (∀ (pfx : String) (f : Flags2) (t : String),
      loop2step pfx f (WsMessage.other t) =
        Except.error ("Wrong message: " ++ t)) ∧
    (∀ (pfx : String) (f : Flags2) (d : Int) (ts : String),
      loop2step pfx f (WsMessage.event d ts) =
        Except.error "Wrong message: event") ∧
    (∀ (pfx : String) (f : Flags3) (t : String),
      loop3step pfx f (WsMessage.other t) = Except.ok f) ∧
    (∀ (pfx : String) (m1 m2 m3 : WsMessage) (rest : List WsMessage) (t : String),
      (m1 = WsMessage.other t ∨ m2 = WsMessage.other t ∨ m3 = WsMessage.other t) →
      collect3 pfx (m1 :: m2 :: m3 :: rest) ≠ Except.ok ()) := by
  refine ⟨fun pfx f t => rfl, fun pfx f d ts => rfl, fun pfx f t => rfl, ?_⟩
  intro pfx m1 m2 m3 rest t hother hok
  rw [collect3] at hok
  cases hs1 : loop3step pfx ⟨false, false, false⟩ m1 with
  | error e => simp [hs1] at hok
  | ok f1 =>
    cases hs2 : loop3step pfx f1 m2 with
    | error e => simp [hs1, hs2] at hok
    | ok f2 =>
      cases hs3 : loop3step pfx f2 m3 with
      | error e => simp [hs1, hs2, hs3] at hok
      | ok f3 =>
        simp only [hs1, hs2, hs3] at hok
        by_cases hc : (f3.propertyReceived && f3.eventReceived &&
            f3.actionReceived) = true
        · have h3 : flags3Count f3 = 3 := flags3Count_complete hc
          have hb1 : flags3Count f1 ≤ flags3Count ⟨false, false, false⟩ + 1 :=
            loop3step_count hs1
          have hb2 : flags3Count f2 ≤ flags3Count f1 + 1 := loop3step_count hs2
          have hb3 : flags3Count f3 ≤ flags3Count f2 + 1 := loop3step_count hs3
          have hz : flags3Count ⟨false, false, false⟩ = 0 := rfl
          rcases hother with rfl | rfl | rfl
          · rw [loop3step_other_ok] at hs1
            simp only [Except.ok.injEq] at hs1
            rw [← hs1, hz] at hb2
            omega
          · rw [loop3step_other_ok] at hs2
            simp only [Except.ok.injEq] at hs2
            rw [← hs2] at hb3
            omega
          · rw [loop3step_other_ok] at hs3
            simp only [Except.ok.injEq] at hs3
            rw [← hs3] at h3
            omega
        · simp [hc] at hok

/-- Claim C2 witness: a concrete three-message stream starting with an
unexpected kind on which the three-message phase fails. -/
theorem ws_collect_unknown_kind_handling_app :
    collect3 "" [WsMessage.other "foo", WsMessage.propertyStatus 100,
      WsMessage.event 102 "2020-06-15T12:00:00+00:00"] ≠ Except.ok () :=
  ws_collect_unknown_kind_handling.2.2.2 "" (WsMessage.other "foo")
    (WsMessage.propertyStatus 100)
    (WsMessage.event 102 "2020-06-15T12:00:00+00:00") [] "foo" (Or.inl rfl)
